import Mathlib

/-!
# Verification of the speed-test measurement engine

Shallow embedding of `src/lib/speedtest-engine.ts` (latency prober, endpoint
ranker, parameter policy, throughput orchestrator, upload payload cache) and
proofs of the specification claims about it.

Modelling conventions:
* Times (milliseconds from `performance.now()`) and all sample values are
  rationals; JavaScript floating point is modelled exactly over `ℚ`, so
  "within floating-point tolerance" statements hold exactly here.
* `Math.sqrt` is real-valued, so the jitter field lives in `ℝ`.
* Network effects are parameters: a latency run takes the list of probe
  outcomes (`some elapsed` for a probe that succeeded, `none` for one that
  failed), and a throughput run takes, per connection loop, the timeline of
  prospective fetches the loop would perform.
* A JavaScript exception escaping a function is modelled by `Except.error`.
* `parseFloat(x.toFixed(2))` rounds to the nearest multiple of 1/100 with
  ties toward the larger value, which is Mathlib's `round` applied to `100*x`.
-/

namespace SpeedTest


/-- `parseFloat(x.toFixed(2))`: round to two decimal places (ties up). -/
def toFixed2 (q : ℚ) : ℚ := (round (q * 100) : ℤ) / 100

/-- Real-valued variant of `toFixed2`, for the `Math.sqrt`-valued jitter. -/
noncomputable def toFixed2R (x : ℝ) : ℝ := (round (x * 100) : ℤ) / 100

/-- One step of the stable ascending sort `[...samples].sort((a, b) => a - b)`:
insert `a` in front of the first element it does not exceed. -/
def insertSorted (a : ℚ) : List ℚ → List ℚ
  | [] => [a]
  | b :: l => if a ≤ b then a :: b :: l else b :: insertSorted a l

/-- The stable ascending sort `[...samples].sort((a, b) => a - b)`. -/
def sortSamples : List ℚ → List ℚ
  | [] => []
  | a :: l => insertSorted a (sortSamples l)

/-- The samples actually recorded by the probe loop: each successful probe
pushes its elapsed time, a failed probe pushes nothing and is not retried. -/
def collectSamples (probes : List (Option ℚ)) : List ℚ := probes.filterMap id

/-- `sorted[Math.floor(sorted.length / 2)]`: the engine's median, `none` when
the sample list is empty (JavaScript yields `undefined` there). -/
def medianOfCode (samples : List ℚ) : Option ℚ :=
  (sortSamples samples).get? (samples.length / 2)

/-- `LatencyResult` from the source: `{ ping, jitter, samples }`. -/
structure LatencyResult where
  ping : ℚ
  jitter : ℝ
  samples : List ℚ

/-- `measureLatency` (src/lib/speedtest-engine.ts:39-80) as a function of the
probe outcomes.  When every probe failed the sorted sample list is empty, the
median is `undefined` and `undefined.toFixed(2)` throws a `TypeError`; this is
the `Except.error` branch. -/
noncomputable def measureLatency (probes : List (Option ℚ)) :
    Except Unit LatencyResult :=
  let samples := collectSamples probes
  match medianOfCode samples with
  | none => .error ()
  | some median =>
    let mean : ℚ := samples.sum / samples.length
    let variance : ℚ :=
      (samples.map (fun val => (val - mean) ^ 2)).sum / samples.length
    .ok { ping := toFixed2 median
        , jitter := toFixed2R (Real.sqrt variance)
        , samples := samples }

/-- Modelled from the spec: the true median of a sample list — middle element
for an odd count, mean of the two middle elements for an even count. -/
def trueMedian (l : List ℚ) : ℚ :=
  let s := sortSamples l
  if l.length % 2 = 1 then s.getD (l.length / 2) 0
  else (s.getD (l.length / 2 - 1) 0 + s.getD (l.length / 2) 0) / 2

/-- Modelled from the spec: population variance of a sample list, in the
textbook expanded form `(n·Σx² − (Σx)²) / n²`. -/
def specPopVariance (l : List ℚ) : ℚ :=
  ((l.length : ℚ) * (l.map (fun x => x ^ 2)).sum - l.sum ^ 2) /
    (l.length : ℚ) ^ 2

/-- `Server.endpoints` from the source. -/
structure Endpoints where
  ping : String
  download : String
  upload : String
deriving DecidableEq

/-- `Server` from the source. -/
structure Server where
  id : String
  name : String
  location : String
  endpoints : Endpoints
deriving DecidableEq

/-- The latency `selectBestServer` records for one server: `result.ping` of
the 5-probe `measureLatency` run against the server's ping endpoint when that
run returns, and the sentinel `9999` when it throws (`catch` branch), which
happens exactly when every probe failed.  `net` maps a ping URL to the probe
outcomes observed against it. -/
def serverLatency (net : String → List (Option ℚ)) (s : Server) : ℚ :=
  match medianOfCode (collectSamples (net s.endpoints.ping)) with
  | some m => toFixed2 m
  | none => 9999

/-- One step of the stable sort `latencies.sort((a, b) => a.latency - b.latency)`. -/
def insertPair (p : Server × ℚ) : List (Server × ℚ) → List (Server × ℚ)
  | [] => [p]
  | q :: rest => if p.2 ≤ q.2 then p :: q :: rest else q :: insertPair p rest

/-- The stable sort `latencies.sort((a, b) => a.latency - b.latency)`. -/
def sortByLatency : List (Server × ℚ) → List (Server × ℚ)
  | [] => []
  | p :: rest => insertPair p (sortByLatency rest)

/-- Lines 84-88 of the source: drop the `'local-server'` entry, but fall back
to the full list when no remote server remains. -/
def serversToTest (servers : List Server) : List Server :=
  let remoteServers := servers.filter (fun s => s.id ≠ "local-server")
  if remoteServers.length > 0 then remoteServers else servers

/-- `selectBestServer` (src/lib/speedtest-engine.ts:83-103): probe each tested
server, sort the `{server, latency}` pairs by latency and return the first.
`none` occurs only for an empty input list (where the JavaScript faults on
`latencies[0].server`). -/
def selectBestServer (net : String → List (Option ℚ))
    (servers : List Server) : Option Server :=
  let latencies := (serversToTest servers).map
    (fun server => (server, serverLatency net server))
  (sortByLatency latencies).head?.map (fun p => p.1)

/-- C5 counterexample servers and network: `srvB`'s probe run succeeds with a
median of 10000 ms, `srvA`'s probe run fails entirely. -/
def srvA : Server :=
  { id := "a", name := "A", location := "X"
  , endpoints := { ping := "pingA", download := "dlA", upload := "upA" } }

def srvB : Server :=
  { id := "b", name := "B", location := "Y"
  , endpoints := { ping := "pingB", download := "dlB", upload := "upB" } }

def srvLocal : Server :=
  { id := "local-server", name := "Local", location := "here"
  , endpoints := { ping := "pingL", download := "dlL", upload := "upL" } }

def cexNet : String → List (Option ℚ) := fun url =>
  if url = "pingB" then List.replicate 5 (some 10000)
  else List.replicate 5 none

/-- `getOptimalConnections` (src/lib/speedtest-engine.ts:323-329). -/
def getOptimalConnections (estimatedMbps : ℚ) : ℕ :=
  if estimatedMbps < 10 then 4
  else if estimatedMbps < 50 then 6
  else if estimatedMbps < 100 then 10
  else if estimatedMbps < 250 then 14
  else 18

/-- The `type` argument of `getChunkSize`. -/
inductive TransferType
  | download
  | upload
deriving DecidableEq

/-- `getChunkSize` (src/lib/speedtest-engine.ts:333-346), in bytes
(`512 * 1024` is 0.5 MiB, `1.5 * 1024 * 1024` is 1.5 MiB). -/
def getChunkSize (estimatedMbps : ℚ) : TransferType → ℚ
  | .download =>
    if estimatedMbps < 10 then 1 * 1024 * 1024
    else if estimatedMbps < 50 then 2 * 1024 * 1024
    else if estimatedMbps < 100 then 3 * 1024 * 1024
    else 5 * 1024 * 1024
  | .upload =>
    if estimatedMbps < 10 then 512 * 1024
    else if estimatedMbps < 50 then 1 * 1024 * 1024
    else if estimatedMbps < 100 then 1.5 * 1024 * 1024
    else 2 * 1024 * 1024

/-- One prospective fetch of a transfer loop: the elapsed time (milliseconds
since the run's start) at the loop-head budget check preceding it, the bytes
it moves (`data.byteLength` for download, `bytesReceived` for upload), and
the wall-clock time the fetch itself takes. -/
structure FetchOutcome where
  checkElapsed : ℚ
  bytes : ℕ
  chunkDuration : ℚ
deriving DecidableEq

/-- The `while` loop of `downloadChunk`/`uploadChunk`, without external
cancellation: before every fetch the loop compares the elapsed time against
the duration budget (`if (elapsed >= duration * 1000) break`) and exits at
the first check that fails; every fetch before that point is performed. -/
def runLoop (duration : ℚ) : List FetchOutcome → List FetchOutcome
  | [] => []
  | f :: rest =>
    if duration * 1000 ≤ f.checkElapsed then []
    else f :: runLoop duration rest

/-- `SpeedResult` from the source (`bytesTransferred` is set by both
orchestrators, so it is a plain field here). -/
structure SpeedResult where
  mbps : ℚ
  samples : List ℚ
  duration : ℚ
  bytesTransferred : ℕ
deriving DecidableEq

/-- The per-chunk instantaneous sample
`(bytes * 8) / ((chunkDuration / 1000) * 1000000)`. -/
def currentMbps (bytes : ℕ) (chunkDuration : ℚ) : ℚ :=
  ((bytes : ℚ) * 8) / ((chunkDuration / 1000) * 1000000)

/-- `measureDownloadSpeed` (src/lib/speedtest-engine.ts:106-200) as a function
of the per-connection fetch timelines.  `startTime` is `performance.now()` at
run start and `endTime` at the return of `Promise.all`, i.e. the moment the
last loop returns.  Progress reporting mutates no measurement state and is
not modelled; a fetch that throws records neither bytes nor a sample and is
simply absent from its loop's timeline. -/
def measureDownloadSpeed (duration : ℚ) (loops : List (List FetchOutcome))
    (startTime endTime : ℚ) : SpeedResult :=
  let events := (loops.map (runLoop duration)).flatten
  let totalBytes := (events.map (fun e => e.bytes)).sum
  let samples := events.map (fun e => currentMbps e.bytes e.chunkDuration)
  let totalDuration := (endTime - startTime) / 1000
  { mbps := toFixed2 (((totalBytes : ℚ) * 8) / totalDuration / 1000000)
  , samples := samples
  , duration := totalDuration
  , bytesTransferred := totalBytes }

/-- Result of the payload-cache step at the top of `measureUploadSpeed`:
the payload used for the run, the cache afterwards, and whether the random
generation routine ran. -/
structure CacheStep where
  data : List ℕ
  cache : List (ℕ × List ℕ)
  generated : Bool
deriving DecidableEq

/-- Lines 219-234 of the source: look the chunk size up in `uploadDataCache`;
on a miss generate a fresh random payload (`gen` stands for the byte string
`crypto.getRandomValues` fills on this call) and store it only while the
cache holds fewer than 5 entries. -/
def getUploadData (cache : List (ℕ × List ℕ)) (chunkSize : ℕ)
    (gen : List ℕ) : CacheStep :=
  match cache.lookup chunkSize with
  | some d => ⟨d, cache, false⟩
  | none =>
    if cache.length < 5 then ⟨gen, cache ++ [(chunkSize, gen)], true⟩
    else ⟨gen, cache, true⟩

/-- `measureUploadSpeed` (src/lib/speedtest-engine.ts:203-320): the payload
cache step, then the same loop-and-aggregate computation as the download
side, with `bytes` the server-acknowledged `bytesReceived` of each chunk.
Returns the result together with the cache after the run. -/
def measureUploadSpeed (duration : ℚ) (chunkSize : ℕ)
    (cache : List (ℕ × List ℕ)) (gen : List ℕ)
    (loops : List (List FetchOutcome)) (startTime endTime : ℚ) :
    SpeedResult × List (ℕ × List ℕ) :=
  let step := getUploadData cache chunkSize gen
  let events := (loops.map (runLoop duration)).flatten
  let totalBytes := (events.map (fun e => e.bytes)).sum
  let samples := events.map (fun e => currentMbps e.bytes e.chunkDuration)
  let totalDuration := (endTime - startTime) / 1000
  ({ mbps := toFixed2 (((totalBytes : ℚ) * 8) / totalDuration / 1000000)
   , samples := samples
   , duration := totalDuration
   , bytesTransferred := totalBytes }, step.cache)

/-- Modelled from the spec: aggregate throughput in Mbps — total bytes times
8, divided by the wall-clock duration converted from milliseconds to
seconds, divided by 1,000,000 (decimal megabits, not 1,048,576). -/
def specAggregateMbps (totalBytes : ℕ) (wallMs : ℚ) : ℚ :=
  ((totalBytes : ℚ) * 8) / (wallMs / 1000) / 1000000

/-- A demonstration trace: one connection loop fetching two 1 MB chunks, the
first in 100 ms, the second in 900 ms, inside a 10-second budget with the run
ending at 1000 ms. -/
def demoLoops : List (List FetchOutcome) :=
  [[⟨0, 1000000, 100⟩, ⟨100, 1000000, 900⟩]]

theorem insertSorted_length (a : ℚ) (l : List ℚ) :
    (insertSorted a l).length = l.length + 1 := by
  induction l with
  | nil => rfl
  | cons b l ih =>
    simp only [insertSorted]
    split <;> simp [ih]

theorem sortSamples_length (l : List ℚ) :
    (sortSamples l).length = l.length := by
  induction l with
  | nil => rfl
  | cons a l ih => simp [sortSamples, insertSorted_length, ih]

theorem medianOfCode_isSome (l : List ℚ) (h : l ≠ []) :
    medianOfCode l = some ((sortSamples l).getD (l.length / 2) 0) := by
  have hlen : l.length / 2 < (sortSamples l).length := by
    rw [sortSamples_length]
    have : 0 < l.length := List.length_pos.mpr h
    omega
  simp [medianOfCode, List.getD, List.getElem?_eq_getElem hlen]

theorem collectSamples_length (probes : List (Option ℚ)) :
    (collectSamples probes).length
      = probes.length - probes.countP (fun p => p.isNone) := by
  induction probes with
  | nil => rfl
  | cons p rest ih =>
    have hle : rest.countP (fun p => p.isNone) ≤ rest.length :=
      List.countP_le_length _
    cases p <;>
      simp [collectSamples, List.filterMap_cons, List.countP_cons] at * <;>
      omega

theorem collectSamples_mem (probes : List (Option ℚ)) (q : ℚ)
    (hq : q ∈ collectSamples probes) : some q ∈ probes := by
  simpa [collectSamples] using hq

theorem sum_sub_sq (l : List ℚ) (m : ℚ) :
    (l.map (fun val => (val - m) ^ 2)).sum
      = (l.map (fun x => x ^ 2)).sum - 2 * m * l.sum + l.length * m ^ 2 := by
  induction l with
  | nil => simp
  | cons a l ih =>
    simp only [List.map_cons, List.sum_cons, List.length_cons, ih]
    push_cast
    ring

theorem variance_eq_spec (l : List ℚ) (h : l ≠ []) :
    (l.map (fun val => (val - l.sum / l.length) ^ 2)).sum / l.length
      = specPopVariance l := by
  have hpos : 0 < l.length := List.length_pos.mpr h
  have hn : ((l.length : ℚ)) ≠ 0 := by
    exact_mod_cast Nat.pos_iff_ne_zero.mp hpos
  rw [sum_sub_sq, specPopVariance]
  field_simp
  ring

theorem trueMedian_odd (l : List ℚ) (hodd : l.length % 2 = 1) :
    trueMedian l = (sortSamples l).getD (l.length / 2) 0 := by
  simp [trueMedian, hodd]

/-- Evaluation of `measureLatency` on a run with at least one recorded
sample: it succeeds, the reported ping is the element at index
`⌊n / 2⌋` of the sorted samples rounded to two decimals, and the jitter is the
population standard deviation rounded to two decimals. -/
theorem measureLatency_ok (probes : List (Option ℚ))
    (h : collectSamples probes ≠ []) :
    measureLatency probes
      = .ok { ping := toFixed2 ((sortSamples (collectSamples probes)).getD
                ((collectSamples probes).length / 2) 0)
            , jitter := toFixed2R (Real.sqrt
                (specPopVariance (collectSamples probes)))
            , samples := collectSamples probes } := by
  have hm := medianOfCode_isSome (collectSamples probes) h
  have hvar := variance_eq_spec (collectSamples probes) h
  simp only [measureLatency, hm, hvar]

theorem medianOfCode_nil : medianOfCode [] = none := rfl

/-- C2 counterexample: a run with two successful probes of 1 ms and 3 ms (an
even sample count).  The engine reports `ping = 3` — the element at index
`⌊2/2⌋ = 1` of the sorted samples — while the true median of `[1, 3]` is `2`,
so the reported ping is not the true median for even sample counts. -/
theorem measureLatency_even_count_cex :
    measureLatency [some 1, some 3]
        = .ok { ping := 3, jitter := 1, samples := [1, 3] }
      ∧ trueMedian [1, 3] = 2 ∧ (3 : ℚ) ≠ 2 := by
  have h : collectSamples [some (1 : ℚ), some 3] ≠ [] := by decide
  refine ⟨?_, by norm_num [trueMedian, sortSamples, insertSorted], by norm_num⟩
  rw [measureLatency_ok _ h]
  have hc : collectSamples [some (1 : ℚ), some 3] = [1, 3] := rfl
  have hping : toFixed2 ((sortSamples (collectSamples [some (1 : ℚ), some 3])).getD
      ((collectSamples [some (1 : ℚ), some 3]).length / 2) 0) = 3 := by
    rw [hc]
    norm_num [sortSamples, insertSorted, toFixed2]
  have hvar : specPopVariance (collectSamples [some (1 : ℚ), some 3]) = 1 := by
    rw [hc]
    norm_num [specPopVariance]
  have hjit : toFixed2R (Real.sqrt
      (specPopVariance (collectSamples [some (1 : ℚ), some 3]))) = 1 := by
    rw [hvar]
    push_cast
    rw [Real.sqrt_one]
    norm_num [toFixed2R, round_eq]
  rw [hping, hjit]
  rfl

/-- C2 (amended): for every latency run in which at least one probe succeeds,
`measureLatency` returns `ping` equal to the element at index `⌊n / 2⌋` of the
sorted sample sequence (the upper median — equal to the true median exactly
when the sample count is odd) and `jitter` equal to the population standard
deviation of the sequence, both rounded to two decimal places. -/
theorem measureLatency_median_stddev (probes : List (Option ℚ))
    (h : collectSamples probes ≠ []) :
    ∃ r, measureLatency probes = .ok r
      ∧ r.samples = collectSamples probes
      ∧ r.ping = toFixed2 ((sortSamples (collectSamples probes)).getD
          ((collectSamples probes).length / 2) 0)
      ∧ ((collectSamples probes).length % 2 = 1 →
          r.ping = toFixed2 (trueMedian (collectSamples probes)))
      ∧ r.jitter = toFixed2R (Real.sqrt
          (specPopVariance (collectSamples probes))) := by
  refine ⟨_, measureLatency_ok probes h, rfl, rfl, ?_, rfl⟩
  intro hodd
  rw [trueMedian_odd _ hodd]

/-- Witness for the C2 amended theorem: the run `[some 1, some 2, some 9]`
(odd sample count) has at least one sample. -/
theorem measureLatency_median_stddev_witness :
    ∃ r, measureLatency [some 1, some 2, some 9] = .ok r
      ∧ r.samples = collectSamples [some 1, some 2, some 9]
      ∧ r.ping = toFixed2 ((sortSamples (collectSamples [some 1, some 2, some 9])).getD
          ((collectSamples [some 1, some 2, some 9]).length / 2) 0)
      ∧ ((collectSamples [some 1, some 2, some 9]).length % 2 = 1 →
          r.ping = toFixed2 (trueMedian (collectSamples [some 1, some 2, some 9])))
      ∧ r.jitter = toFixed2R (Real.sqrt
          (specPopVariance (collectSamples [some 1, some 2, some 9]))) :=
  measureLatency_median_stddev [some 1, some 2, some 9] (by decide)

/-- C6: the recorded sample sequence of a latency run has length equal to the
requested probe count minus the number of failed probes; a failed probe
contributes no sample (every recorded sample is the elapsed time of a
successful probe), and each requested probe is attempted exactly once (the
outcome list has exactly `count` entries, with no retry entries). -/
theorem latencySamples_invariant (count : ℕ) (probes : List (Option ℚ))
    (hlen : probes.length = count) :
    (collectSamples probes).length
        = count - probes.countP (fun p => p.isNone)
      ∧ ∀ q ∈ collectSamples probes, some q ∈ probes := by
  subst hlen
  exact ⟨collectSamples_length probes,
    fun q hq => collectSamples_mem probes q hq⟩

/-- Witness for C6: a 3-probe run whose second probe failed records exactly
two samples, both coming from successful probes. -/
theorem latencySamples_invariant_witness :
    (collectSamples [some 5, none, some 7]).length
        = 3 - ([some (5 : ℚ), none, some 7].countP (fun p => p.isNone))
      ∧ ∀ q ∈ collectSamples [some (5 : ℚ), none, some 7],
          some q ∈ [some (5 : ℚ), none, some 7] :=
  latencySamples_invariant 3 [some 5, none, some 7] rfl

/-- C7 counterexample: on a run where all five probes fail, `measureLatency`
does not return a degenerate result — it throws (the sorted sample list is
empty, its median is `undefined`, and `undefined.toFixed(2)` raises a
`TypeError`), modelled as `Except.error`. -/
theorem measureLatency_allFail_cex :
    measureLatency (List.replicate 5 none) = .error () := rfl

/-- C7 (amended): if every probe of a latency run fails, `measureLatency`
raises an error (a `TypeError` from taking `.toFixed` of the `undefined`
median) instead of returning a result; callers such as `selectBestServer`
observe the failure as an exception, not as a NaN/empty result value. -/
theorem measureLatency_allFail (probes : List (Option ℚ))
    (h : ∀ p ∈ probes, p = none) :
    measureLatency probes = .error () := by
  have hc : collectSamples probes = [] := by
    simp only [collectSamples, List.filterMap_eq_nil_iff]
    intro a ha
    simp [h a ha]
  simp [measureLatency, hc, medianOfCode_nil]

/-- Witness for the C7 amended theorem at a concrete all-failing run. -/
theorem measureLatency_allFail_witness :
    measureLatency [none, none] = .error () :=
  measureLatency_allFail [none, none] (by simp)

/-- `serverLatency` is the official `measureLatency`-based computation: the
`ping` field on success, `9999` when the probe run throws. -/
theorem serverLatency_eq_measureLatency (net : String → List (Option ℚ))
    (s : Server) :
    serverLatency net s
      = match measureLatency (net s.endpoints.ping) with
        | .ok r => r.ping
        | .error _ => 9999 := by
  unfold serverLatency measureLatency
  cases hm : medianOfCode (collectSamples (net s.endpoints.ping)) <;> simp [hm]

theorem mem_insertPair (x p : Server × ℚ) (l : List (Server × ℚ)) :
    x ∈ insertPair p l ↔ x = p ∨ x ∈ l := by
  induction l with
  | nil => simp [insertPair]
  | cons q rest ih =>
    simp only [insertPair]
    split
    · simp
    · simp only [List.mem_cons, ih]
      tauto

theorem mem_sortByLatency (x : Server × ℚ) (l : List (Server × ℚ)) :
    x ∈ sortByLatency l ↔ x ∈ l := by
  induction l with
  | nil => simp [sortByLatency]
  | cons p rest ih => simp [sortByLatency, mem_insertPair, ih]

theorem sortByLatency_head_min (l : List (Server × ℚ)) (h : l ≠ []) :
    ∃ m rest, sortByLatency l = m :: rest ∧ m ∈ l ∧ ∀ x ∈ l, m.2 ≤ x.2 := by
  induction l with
  | nil => exact absurd rfl h
  | cons p t ih =>
    cases t with
    | nil =>
      exact ⟨p, [], rfl, List.mem_singleton.mpr rfl, by
        intro x hx
        rw [List.mem_singleton] at hx
        simp [hx]⟩
    | cons q t2 =>
      obtain ⟨m, rest, hsort, hmem, hmin⟩ := ih (by simp)
      simp only [sortByLatency] at hsort ⊢
      rw [hsort]
      simp only [insertPair]
      split
      · refine ⟨p, m :: rest, rfl, List.mem_cons_self p _, ?_⟩
        intro x hx
        rcases List.mem_cons.mp hx with hx | hx
        · simp [hx]
        · exact le_trans (by assumption) (hmin x hx)
      · refine ⟨m, insertPair p rest, rfl, List.mem_cons_of_mem p hmem, ?_⟩
        intro x hx
        rcases List.mem_cons.mp hx with hx | hx
        · rw [hx]
          linarith [lt_of_not_le (by assumption)]
        · exact hmin x hx

theorem sortByLatency_head_first (p : Server × ℚ) (t : List (Server × ℚ))
    (h : ∀ x ∈ t, p.2 ≤ x.2) :
    ∃ rest, sortByLatency (p :: t) = p :: rest := by
  simp only [sortByLatency]
  cases hs : sortByLatency t with
  | nil => exact ⟨[], rfl⟩
  | cons q rest =>
    have hq : q ∈ t := (mem_sortByLatency q t).mp (by rw [hs]; exact List.mem_cons_self q rest)
    refine ⟨q :: rest, ?_⟩
    simp [insertPair, h q hq]

theorem serversToTest_eq (servers : List Server) :
    serversToTest servers
      = if (servers.filter (fun s => s.id ≠ "local-server")).length > 0
        then servers.filter (fun s => s.id ≠ "local-server")
        else servers := rfl

theorem serversToTest_ne_nil (servers : List Server) (h : servers ≠ []) :
    serversToTest servers ≠ [] := by
  rw [serversToTest_eq]
  split
  · rename_i hlen
    intro hc
    rw [hc] at hlen
    simp at hlen
  · exact h

/-- Core ranking fact shared by the C5 and C9 theorems: on a non-empty tested
list, `selectBestServer` returns the first tested server whose recorded
latency is minimal. -/
theorem selectBestServer_spec (net : String → List (Option ℚ))
    (servers : List Server) (h : serversToTest servers ≠ []) :
    ∃ best, selectBestServer net servers = some best
      ∧ best ∈ serversToTest servers
      ∧ ∀ s ∈ serversToTest servers,
          serverLatency net best ≤ serverLatency net s := by
  have hmap : (serversToTest servers).map
      (fun server => (server, serverLatency net server)) ≠ [] := by
    simpa using h
  obtain ⟨m, rest, hsort, hmem, hmin⟩ := sortByLatency_head_min _ hmap
  refine ⟨m.1, ?_, ?_, ?_⟩
  · simp [selectBestServer, hsort]
  · rcases List.mem_map.mp hmem with ⟨s, hs, hps⟩
    rw [← hps]
    exact hs
  · intro s hs
    have hpair : (s, serverLatency net s) ∈ (serversToTest servers).map
        (fun server => (server, serverLatency net server)) :=
      List.mem_map.mpr ⟨s, hs, rfl⟩
    have := hmin _ hpair
    rcases List.mem_map.mp hmem with ⟨s0, hs0, hps0⟩
    calc serverLatency net m.1 = m.2 := by rw [← hps0]
    _ ≤ serverLatency net s := this

theorem collectSamples_eq_nil (probes : List (Option ℚ))
    (h : ∀ p ∈ probes, p = none) : collectSamples probes = [] := by
  simp only [collectSamples, List.filterMap_eq_nil_iff]
  intro a ha
  simp [h a ha]

theorem serverLatency_of_allFail (net : String → List (Option ℚ)) (s : Server)
    (h : ∀ p ∈ net s.endpoints.ping, p = none) :
    serverLatency net s = 9999 := by
  have hc := collectSamples_eq_nil (net s.endpoints.ping) h
  simp [serverLatency, hc, medianOfCode_nil]

theorem selectBestServer_eq (net : String → List (Option ℚ))
    (servers : List Server) :
    selectBestServer net servers
      = (sortByLatency ((serversToTest servers).map
          (fun server => (server, serverLatency net server)))).head?.map
          (fun p => p.1) := rfl

theorem selectBestServer_first_on_tie (net : String → List (Option ℚ))
    (servers : List Server) (h : serversToTest servers ≠ [])
    (hall : ∀ s ∈ serversToTest servers, serverLatency net s = 9999) :
    selectBestServer net servers = (serversToTest servers).head? := by
  obtain ⟨s0, rest, hst⟩ := List.exists_cons_of_ne_nil h
  rw [selectBestServer_eq, hst]
  simp only [List.map_cons]
  have hx : ∀ x ∈ rest.map (fun server => (server, serverLatency net server)),
      (s0, serverLatency net s0).2 ≤ x.2 := by
    intro x hx
    rcases List.mem_map.mp hx with ⟨s, hs, hxs⟩
    have hmem : s ∈ serversToTest servers := by
      rw [hst]
      exact List.mem_cons_of_mem s0 hs
    have hmem0 : s0 ∈ serversToTest servers := by
      rw [hst]
      exact List.mem_cons_self s0 rest
    rw [← hxs]
    simp [hall s hmem, hall s0 hmem0]
  obtain ⟨rest2, hr⟩ := sortByLatency_head_first (s0, serverLatency net s0)
    (rest.map (fun server => (server, serverLatency net server))) hx
  rw [hr]
  simp

/-- C5 counterexample: the sentinel `9999` is not large enough to always lose
to a successful endpoint.  Against `cexNet`, `srvA`'s probe run fails entirely
(sentinel 9999) while `srvB`'s run succeeds with median latency 10000, yet
`selectBestServer` returns `srvA`, not the endpoint whose run yielded the
lowest (indeed the only) median latency. -/
theorem selectBestServer_sentinel_cex :
    selectBestServer cexNet [srvA, srvB] = some srvA
      ∧ cexNet srvA.endpoints.ping = List.replicate 5 none
      ∧ serverLatency cexNet srvA = 9999
      ∧ serverLatency cexNet srvB = 10000
      ∧ srvA ≠ srvB := by
  have hA : serverLatency cexNet srvA = 9999 := rfl
  have hmedB : medianOfCode (collectSamples (cexNet srvB.endpoints.ping))
      = some 10000 := rfl
  have hB : serverLatency cexNet srvB = 10000 := by
    unfold serverLatency
    rw [hmedB]
    norm_num [toFixed2]
  refine ⟨?_, rfl, hA, hB, by decide⟩
  rw [selectBestServer_eq]
  have hst : serversToTest [srvA, srvB] = [srvA, srvB] := rfl
  rw [hst]
  simp only [List.map_cons, List.map_nil, hA, hB]
  norm_num [sortByLatency, insertPair]

/-- C5 (amended): on a non-empty candidate list `selectBestServer` never
raises and returns a tested server whose recorded latency — the rounded
upper-median ping of its 5-probe run, or the sentinel `9999` when that run
fails entirely — is minimal among the tested servers (so a failed endpoint
loses to any successful endpoint whose ping is below 9999, but not to one
with a ping of 9999 or more); when every tested endpoint fails, the first
tested candidate is returned. -/
theorem selectBestServer_ranking (net : String → List (Option ℚ))
    (servers : List Server) (h : servers ≠ []) :
    (∃ best, selectBestServer net servers = some best
        ∧ best ∈ serversToTest servers
        ∧ ∀ s ∈ serversToTest servers,
            serverLatency net best ≤ serverLatency net s)
      ∧ (∀ s ∈ serversToTest servers,
          (∀ p ∈ net s.endpoints.ping, p = none) →
            serverLatency net s = 9999)
      ∧ ((∀ s ∈ serversToTest servers, serverLatency net s = 9999) →
          selectBestServer net servers = (serversToTest servers).head?) := by
  have hst := serversToTest_ne_nil servers h
  exact ⟨selectBestServer_spec net servers hst,
    fun s _ hfail => serverLatency_of_allFail net s hfail,
    fun hall => selectBestServer_first_on_tie net servers hst hall⟩

/-- Witness for the C5 amended theorem on the concrete two-server list. -/
theorem selectBestServer_ranking_witness :
    (∃ best, selectBestServer cexNet [srvA, srvB] = some best
        ∧ best ∈ serversToTest [srvA, srvB]
        ∧ ∀ s ∈ serversToTest [srvA, srvB],
            serverLatency cexNet best ≤ serverLatency cexNet s)
      ∧ (∀ s ∈ serversToTest [srvA, srvB],
          (∀ p ∈ cexNet s.endpoints.ping, p = none) →
            serverLatency cexNet s = 9999)
      ∧ ((∀ s ∈ serversToTest [srvA, srvB],
            serverLatency cexNet s = 9999) →
          selectBestServer cexNet [srvA, srvB]
            = (serversToTest [srvA, srvB]).head?) :=
  selectBestServer_ranking cexNet [srvA, srvB] (by simp)

/-- C9: if a `'local-server'` endpoint appears among a larger candidate list,
it is excluded from ranking — the tested set is the remote filter and the
returned server is never the local one; when no remote endpoint exists,
ranking falls back to the full list, so a lone local server is still used. -/
theorem selectBestServer_local_policy (net : String → List (Option ℚ))
    (servers : List Server) :
    ((servers.filter (fun s => s.id ≠ "local-server")) ≠ [] →
        serversToTest servers = servers.filter (fun s => s.id ≠ "local-server")
        ∧ ∃ best, selectBestServer net servers = some best
            ∧ best.id ≠ "local-server")
      ∧ ((servers.filter (fun s => s.id ≠ "local-server")) = [] →
          serversToTest servers = servers
          ∧ (servers ≠ [] → ∃ best, selectBestServer net servers = some best
              ∧ best ∈ servers)) := by
  constructor
  · intro hremote
    have hlen : (servers.filter (fun s => s.id ≠ "local-server")).length > 0 :=
      List.length_pos.mpr hremote
    have hst : serversToTest servers
        = servers.filter (fun s => s.id ≠ "local-server") := by
      rw [serversToTest_eq, if_pos hlen]
    refine ⟨hst, ?_⟩
    obtain ⟨best, hsel, hmem, -⟩ :=
      selectBestServer_spec net servers (by rw [hst]; exact hremote)
    refine ⟨best, hsel, ?_⟩
    rw [hst] at hmem
    have := List.mem_filter.mp hmem
    simpa using this.2
  · intro hempty
    have hlen : ¬ (servers.filter (fun s => s.id ≠ "local-server")).length > 0 := by
      rw [hempty]
      simp
    have hst : serversToTest servers = servers := by
      rw [serversToTest_eq, if_neg hlen]
    refine ⟨hst, fun hne => ?_⟩
    obtain ⟨best, hsel, hmem, -⟩ :=
      selectBestServer_spec net servers (by rw [hst]; exact hne)
    exact ⟨best, hsel, hst ▸ hmem⟩

/-- Witness for C9: a local+remote pair ranks only the remote server, and a
lone local server is still selected. -/
theorem selectBestServer_local_policy_witness :
    (serversToTest [srvLocal, srvA]
        = [srvLocal, srvA].filter (fun s => s.id ≠ "local-server")
      ∧ ∃ best, selectBestServer cexNet [srvLocal, srvA] = some best
          ∧ best.id ≠ "local-server")
    ∧ (serversToTest [srvLocal] = [srvLocal]
      ∧ ∃ best, selectBestServer cexNet [srvLocal] = some best
          ∧ best ∈ [srvLocal]) := by
  constructor
  · exact (selectBestServer_local_policy cexNet [srvLocal, srvA]).1 (by decide)
  · have h2 := (selectBestServer_local_policy cexNet [srvLocal]).2 (by decide)
    exact ⟨h2.1, h2.2 (by simp)⟩

/-- C3: `getOptimalConnections` is a pure total function realising exactly the
connections table — `< 10 → 4`, `10–49 → 6`, `50–99 → 10`, `100–249 → 14`,
`≥ 250 → 18` — and is non-decreasing in the estimated Mbps.  (Totality is
structural: the Lean function is total on `ℚ`.) -/
theorem getOptimalConnections_table (x : ℚ) :
    (x < 10 → getOptimalConnections x = 4)
      ∧ (10 ≤ x → x < 50 → getOptimalConnections x = 6)
      ∧ (50 ≤ x → x < 100 → getOptimalConnections x = 10)
      ∧ (100 ≤ x → x < 250 → getOptimalConnections x = 14)
      ∧ (250 ≤ x → getOptimalConnections x = 18)
      ∧ (∀ y : ℚ, x ≤ y →
          getOptimalConnections x ≤ getOptimalConnections y) := by
  refine ⟨?_, ?_, ?_, ?_, ?_, ?_⟩
  · intro hx
    simp [getOptimalConnections, hx]
  · intro h1 h2
    unfold getOptimalConnections
    split_ifs <;> first | rfl | linarith
  · intro h1 h2
    unfold getOptimalConnections
    split_ifs <;> first | rfl | linarith
  · intro h1 h2
    unfold getOptimalConnections
    split_ifs <;> first | rfl | linarith
  · intro h1
    unfold getOptimalConnections
    split_ifs <;> first | rfl | linarith
  · intro y hxy
    unfold getOptimalConnections
    split_ifs <;> first | (exfalso; linarith) | norm_num

/-- Witness for C3 at one point of every tier, plus a monotonicity instance. -/
theorem getOptimalConnections_table_witness :
    getOptimalConnections 5 = 4
      ∧ getOptimalConnections 25 = 6
      ∧ getOptimalConnections 75 = 10
      ∧ getOptimalConnections 170 = 14
      ∧ getOptimalConnections 600 = 18
      ∧ getOptimalConnections 5 ≤ getOptimalConnections 600 :=
  ⟨(getOptimalConnections_table 5).1 (by norm_num),
   (getOptimalConnections_table 25).2.1 (by norm_num) (by norm_num),
   (getOptimalConnections_table 75).2.2.1 (by norm_num) (by norm_num),
   (getOptimalConnections_table 170).2.2.2.1 (by norm_num) (by norm_num),
   (getOptimalConnections_table 600).2.2.2.2.1 (by norm_num),
   (getOptimalConnections_table 5).2.2.2.2.2 600 (by norm_num)⟩

/-- C4 counterexample: 250 is a tier boundary of the connections table but of
neither chunk-size table, so the chunk tables do not use the same tier
boundaries as the connections table. -/
theorem getChunkSize_boundary_cex :
    getChunkSize 100 .download = getChunkSize 250 .download
      ∧ getChunkSize 100 .upload = getChunkSize 250 .upload
      ∧ getOptimalConnections 100 ≠ getOptimalConnections 250 := by
  norm_num [getChunkSize, getOptimalConnections]

/-- C4 (amended): every download chunk size is one of {1, 2, 3, 5} MiB and
every upload chunk size one of {0.5, 1, 1.5, 2} MiB; the chunk tables' tier
boundaries (10, 50, 100) are a subset of the connections table's boundaries —
the chunk size is constant on every connections tier, the connections table's
extra 250 boundary not being a chunk boundary — and at every input the upload
chunk size is strictly smaller than the download chunk size. -/
theorem getChunkSize_tiers (x : ℚ) :
    (getChunkSize x .download = 1 * 1024 * 1024
      ∨ getChunkSize x .download = 2 * 1024 * 1024
      ∨ getChunkSize x .download = 3 * 1024 * 1024
      ∨ getChunkSize x .download = 5 * 1024 * 1024)
    ∧ (getChunkSize x .upload = 512 * 1024
      ∨ getChunkSize x .upload = 1 * 1024 * 1024
      ∨ getChunkSize x .upload = 1.5 * 1024 * 1024
      ∨ getChunkSize x .upload = 2 * 1024 * 1024)
    ∧ (∀ y : ℚ, ∀ t : TransferType,
        getOptimalConnections x = getOptimalConnections y →
          getChunkSize x t = getChunkSize y t)
    ∧ getChunkSize x .upload < getChunkSize x .download := by
  refine ⟨?_, ?_, ?_, ?_⟩
  · unfold getChunkSize
    split_ifs <;> tauto
  · unfold getChunkSize
    split_ifs <;> tauto
  · intro y t heq
    unfold getOptimalConnections at heq
    cases t <;>
      (unfold getChunkSize
       split_ifs at heq ⊢ <;> first | rfl | omega)
  · unfold getChunkSize
    split_ifs <;> norm_num

/-- Witness for the C4 amended theorem at 60 Mbps (with 80 Mbps in the same
tier). -/
theorem getChunkSize_tiers_witness :
    (getChunkSize 60 .download = 1 * 1024 * 1024
      ∨ getChunkSize 60 .download = 2 * 1024 * 1024
      ∨ getChunkSize 60 .download = 3 * 1024 * 1024
      ∨ getChunkSize 60 .download = 5 * 1024 * 1024)
    ∧ (getChunkSize 60 .upload = 512 * 1024
      ∨ getChunkSize 60 .upload = 1 * 1024 * 1024
      ∨ getChunkSize 60 .upload = 1.5 * 1024 * 1024
      ∨ getChunkSize 60 .upload = 2 * 1024 * 1024)
    ∧ getChunkSize 60 .download = getChunkSize 80 .download
    ∧ getChunkSize 60 .upload < getChunkSize 60 .download :=
  ⟨(getChunkSize_tiers 60).1, (getChunkSize_tiers 60).2.1,
   (getChunkSize_tiers 60).2.2.1 80 .download
     (by norm_num [getOptimalConnections]),
   (getChunkSize_tiers 60).2.2.2⟩

/-- C1: for every throughput run (download and upload) the reported final
metric is `toFixed2` of the aggregate formula — reported total bytes times 8,
divided by the wall-clock seconds from run start to the moment the last loop
returns, divided by 1,000,000 — where the reported total bytes is the sum
over all connection loops; on the demonstration trace the reported 16 Mbps
differs both from the average of the per-chunk instantaneous samples (44.44)
and from the value the binary divisor 1,048,576 would give (15.26). -/
theorem throughput_final_metric (duration : ℚ)
    (loops : List (List FetchOutcome)) (startTime endTime : ℚ)
    (chunkSize : ℕ) (cache : List (ℕ × List ℕ)) (gen : List ℕ) :
    (measureDownloadSpeed duration loops startTime endTime).mbps
        = toFixed2 (specAggregateMbps
            (measureDownloadSpeed duration loops startTime endTime).bytesTransferred
            (endTime - startTime))
      ∧ (measureDownloadSpeed duration loops startTime endTime).bytesTransferred
        = ((loops.map (runLoop duration)).map
            (fun L => (L.map (fun e => e.bytes)).sum)).sum
      ∧ (measureDownloadSpeed duration loops startTime endTime).duration
        = (endTime - startTime) / 1000
      ∧ (measureUploadSpeed duration chunkSize cache gen loops
            startTime endTime).1.mbps
        = toFixed2 (specAggregateMbps
            (measureUploadSpeed duration chunkSize cache gen loops
              startTime endTime).1.bytesTransferred
            (endTime - startTime))
      ∧ (measureDownloadSpeed 10 demoLoops 0 1000).mbps = 16
      ∧ toFixed2 ((measureDownloadSpeed 10 demoLoops 0 1000).samples.sum
          / ((measureDownloadSpeed 10 demoLoops 0 1000).samples.length : ℚ))
        = 4444 / 100
      ∧ (16 : ℚ) ≠ 4444 / 100
      ∧ toFixed2 (((2000000 : ℚ) * 8) / (((1000 : ℚ) - 0) / 1000) / 1048576)
        = 1526 / 100
      ∧ (16 : ℚ) ≠ 1526 / 100 := by
  refine ⟨rfl, ?_, rfl, rfl, ?_, ?_, by norm_num, ?_, by norm_num⟩
  · simp only [measureDownloadSpeed, List.map_flatten, List.sum_flatten,
      List.map_map]
    rfl
  · norm_num [measureDownloadSpeed, demoLoops, runLoop, currentMbps, toFixed2]
  · norm_num [measureDownloadSpeed, demoLoops, runLoop, currentMbps,
      toFixed2, round_eq]
  · norm_num [toFixed2, round_eq]

/-- C8 counterexample: with a zero duration budget and a pending fetch
opportunity, `measureDownloadSpeed` issues no transfer (the loop exits at its
first budget check) but still resolves with a normal `SpeedResult` — zero
bytes, no samples, 0.00 Mbps — instead of rejecting the configuration. -/
theorem duration_zero_normal_result_cex :
    measureDownloadSpeed 0 [[⟨0, 1000000, 100⟩]] 0 500
        = { mbps := 0, samples := [], duration := 1 / 2, bytesTransferred := 0 }
      ∧ runLoop 0 [⟨0, 1000000, 100⟩] = [] := by
  constructor
  · norm_num [measureDownloadSpeed, runLoop, toFixed2]
  · norm_num [runLoop]

/-- C8 (amended): for a zero or negative duration budget, every connection
loop exits at its first budget check, so no network transfer is issued; but
the orchestrators do not reject the configuration — both resolve normally
with a zero-byte, zero-Mbps `SpeedResult` (the upload side still runs its
payload-cache step, which is not network activity). -/
theorem duration_nonpositive_no_transfer (duration : ℚ)
    (loops : List (List FetchOutcome)) (startTime endTime : ℚ)
    (chunkSize : ℕ) (cache : List (ℕ × List ℕ)) (gen : List ℕ)
    (hdur : duration ≤ 0)
    (hnn : ∀ L ∈ loops, ∀ f ∈ L, 0 ≤ f.checkElapsed) :
    (∀ L ∈ loops, runLoop duration L = [])
      ∧ measureDownloadSpeed duration loops startTime endTime
          = { mbps := 0, samples := []
            , duration := (endTime - startTime) / 1000, bytesTransferred := 0 }
      ∧ (measureUploadSpeed duration chunkSize cache gen loops
            startTime endTime).1
          = { mbps := 0, samples := []
            , duration := (endTime - startTime) / 1000
            , bytesTransferred := 0 } := by
  have hloops : ∀ L ∈ loops, runLoop duration L = [] := by
    intro L hL
    cases L with
    | nil => rfl
    | cons f rest =>
      have h0 : 0 ≤ f.checkElapsed :=
        hnn (f :: rest) hL f (List.mem_cons_self f rest)
      have hle : duration * 1000 ≤ f.checkElapsed := by nlinarith
      simp [runLoop, hle]
  have hflat : (loops.map (runLoop duration)).flatten = [] := by
    rw [List.flatten_eq_nil_iff]
    intro l hl
    rcases List.mem_map.mp hl with ⟨L, hL, hLl⟩
    rw [← hLl]
    exact hloops L hL
  refine ⟨hloops, ?_, ?_⟩
  · norm_num [measureDownloadSpeed, hflat, toFixed2]
  · norm_num [measureUploadSpeed, hflat, toFixed2]

/-- Witness for the C8 amended theorem at duration 0 with one pending
fetch. -/
theorem duration_nonpositive_no_transfer_witness :
    (∀ L ∈ [[(⟨0, 1000000, 100⟩ : FetchOutcome)]], runLoop 0 L = [])
      ∧ measureDownloadSpeed 0 [[⟨0, 1000000, 100⟩]] 0 500
          = { mbps := 0, samples := []
            , duration := ((500 : ℚ) - 0) / 1000, bytesTransferred := 0 }
      ∧ (measureUploadSpeed 0 1024 [] [7] [[⟨0, 1000000, 100⟩]] 0 500).1
          = { mbps := 0, samples := []
            , duration := ((500 : ℚ) - 0) / 1000, bytesTransferred := 0 } :=
  duration_nonpositive_no_transfer 0 [[⟨0, 1000000, 100⟩]] 0 500 1024 [] [7]
    (by norm_num)
    (by
      intro L hL f hf
      simp only [List.mem_singleton] at hL
      subst hL
      simp only [List.mem_singleton] at hf
      subst hf
      norm_num)

theorem lookup_append_single (c : List (ℕ × List ℕ)) (n : ℕ) (g : List ℕ)
    (h : c.lookup n = none) : (c ++ [(n, g)]).lookup n = some g := by
  induction c with
  | nil => simp [List.lookup]
  | cons p rest ih =>
    obtain ⟨k, v⟩ := p
    cases hbeq : (n == k) with
    | true =>
      exfalso
      simp [List.lookup, hbeq] at h
    | false =>
      simp only [List.lookup, hbeq] at h
      simp only [List.cons_append, List.lookup, hbeq]
      exact ih h

/-- C10: the upload payload cache returns, for a chunk size generated while
the cache had free capacity, the identical cached byte string on the next
request without running the generator again; the cache never exceeds 5
entries; and once it is full a new chunk size is generated afresh but not
added. -/
theorem uploadDataCache_spec (cache : List (ℕ × List ℕ)) (chunkSize : ℕ)
    (gen gen2 : List ℕ) (hmiss : cache.lookup chunkSize = none)
    (hroom : cache.length < 5) :
    ((getUploadData cache chunkSize gen).generated = true
      ∧ (getUploadData cache chunkSize gen).data = gen
      ∧ (getUploadData cache chunkSize gen).cache = cache ++ [(chunkSize, gen)]
      ∧ getUploadData (getUploadData cache chunkSize gen).cache chunkSize gen2
          = ⟨gen, (getUploadData cache chunkSize gen).cache, false⟩)
      ∧ (∀ c : List (ℕ × List ℕ), ∀ n : ℕ, ∀ g : List ℕ,
          c.length ≤ 5 → (getUploadData c n g).cache.length ≤ 5)
      ∧ (∀ c : List (ℕ × List ℕ), ∀ n : ℕ, ∀ g : List ℕ,
          c.lookup n = none → 5 ≤ c.length →
            (getUploadData c n g).cache = c
              ∧ (getUploadData c n g).generated = true) := by
  have hstep : getUploadData cache chunkSize gen
      = ⟨gen, cache ++ [(chunkSize, gen)], true⟩ := by
    simp [getUploadData, hmiss, hroom]
  refine ⟨⟨?_, ?_, ?_, ?_⟩, ?_, ?_⟩
  · rw [hstep]
  · rw [hstep]
  · rw [hstep]
  · rw [hstep]
    have hl := lookup_append_single cache chunkSize gen hmiss
    simp [getUploadData, hl]
  · intro c n g hlen
    cases hl : c.lookup n with
    | some d =>
      simpa [getUploadData, hl] using hlen
    | none =>
      by_cases hlt : c.length < 5
      · simp only [getUploadData, hl]
        rw [if_pos hlt]
        simp
        omega
      · simp only [getUploadData, hl]
        rw [if_neg hlt]
        simpa using hlen
  · intro c n g hmiss2 hfull
    have : ¬ c.length < 5 := by omega
    simp [getUploadData, hmiss2, this]

/-- Witness for C10: a miss on the empty cache stores the payload, and the
following request for the same size returns it without regeneration. -/
theorem uploadDataCache_spec_witness :
    ((getUploadData [] 1024 [7]).generated = true
      ∧ (getUploadData [] 1024 [7]).data = [7]
      ∧ (getUploadData [] 1024 [7]).cache = [] ++ [(1024, [7])]
      ∧ getUploadData (getUploadData [] 1024 [7]).cache 1024 [9]
          = ⟨[7], (getUploadData [] 1024 [7]).cache, false⟩)
      ∧ (∀ c : List (ℕ × List ℕ), ∀ n : ℕ, ∀ g : List ℕ,
          c.length ≤ 5 → (getUploadData c n g).cache.length ≤ 5)
      ∧ (∀ c : List (ℕ × List ℕ), ∀ n : ℕ, ∀ g : List ℕ,
          c.lookup n = none → 5 ≤ c.length →
            (getUploadData c n g).cache = c
              ∧ (getUploadData c n g).generated = true) :=
  uploadDataCache_spec [] 1024 [7] [9] rfl (by norm_num)


end SpeedTest
